import Mathlib

/-!
# Lost-And-Found-Portal: the Post controller

A shallow embedding of `src/controllers/post.controller.js` (`createPost`,
`getAllPosts`, `updatePost`, `deletePost`) together with the collaborators the
controller talks to: the request/response objects, the image upload helper and
the document store.

Modelling conventions.

* Request fields are text: a field is either absent or a string.  JavaScript
  truthiness of such a value is `truthy` (present and non-empty) and `a || b`
  is `orElse`.
* `String.prototype.toLowerCase` appears in two roles.  In the check of the
  type its result is only compared with `"lost"` and `"found"`; the only
  strings whose lower-case form is one of these are spelled with ASCII
  letters, so the ASCII map `toLowerCase` decides the check exactly.  Where
  the lower-cased text itself is kept (the filter of `getAllPosts`) the
  method of the runtime is a parameter, `Env.lowerCase`.
* An awaited call either resolves with a value or rejects (`Promise`); a
  rejection inside a handler is caught by its `try`/`catch` and answered with
  the generic 500 envelope.
* The Post model file (`../models/post.models.js`) is not among the sources.
  A document holds exactly the properties the controller gives it, with the
  values the controller gives them; `_id` and `createdAt` are assigned when the
  document is constructed and are supplied by the environment (`Env`).
* The store is a list of documents.  `findById`, `save` and `deleteOne` act on
  the first document carrying the given `_id`.
* `$regex` with option `i` is modelled by a small backtracking matcher for the
  fragment: literal characters, `.`, `^`, `$`, `|`, groups, the quantifiers
  `*`, `+`, `?` and escaped punctuation.  The case folding of the engine is a
  parameter, `Env.caseFold`: two characters are equal under option `i` when
  they fold to the same character.  What the engine does with a pattern that
  `compile` does not read (a pattern outside the fragment or an ill formed
  one) is a parameter too, `Env.otherPattern`.
-/

namespace LostFound

/-! ## JavaScript values -/

/-- An awaited computation: it resolves with a value or it rejects (throws). -/
inductive Promise (α : Type) where
  | resolved (a : α)
  | rejected
  deriving DecidableEq, Repr

/-- JavaScript truthiness of an optional text value: present and not `""`. -/
def truthy : Option String → Bool
  | none => false
  | some s => s != ""

/-- The JavaScript expression `a || b` where `a` may be absent and `b` is a string. -/
def orElse (a : Option String) (b : String) : String :=
  match a with
  | none => b
  | some s => if s != "" then s else b

/-- The JavaScript expression `a || b` where both sides may be `undefined`. -/
def orElseOpt (a b : Option String) : Option String :=
  match a with
  | none => b
  | some s => if s != "" then some s else b

/-- The ASCII letters of `s` put in lower case.  It stands for
`s.toLowerCase()` in the check of the type only, where the result is compared
with `"lost"` and `"found"`. -/
def toLowerCase (s : String) : String := ⟨s.data.map Char.toLower⟩

/-- The check `["lost", "found"].includes(type.toLowerCase())`. -/
def isAllowedType (type : String) : Bool :=
  ["lost", "found"].contains (toLowerCase type)

/-! ## Regular expressions of the document store (`$regex`, option `i`) -/

/-- Abstract syntax of the modelled fragment of regular expressions. -/
inductive Rx where
  | eps
  | lit (c : Char)
  | dot
  | bol
  | eol
  | seq (a b : Rx)
  | alt (a b : Rx)
  | star (a : Rx)
  deriving DecidableEq, Repr

/-- The characters with a special meaning in a pattern. -/
def isMeta (c : Char) : Bool :=
  c == '\\' || c == '^' || c == '$' || c == '.' || c == '|' || c == '?' || c == '*' ||
  c == '+' || c == '(' || c == ')' || c == '[' || c == ']' || c == '{' || c == '}'

/-- The concatenation of a list of items, in order. -/
def seqOf : List Rx → Rx
  | [] => Rx.eps
  | r :: rs => Rx.seq r (seqOf rs)

/-- One open group of the pattern being read: the alternatives already
finished and the items of the alternative being read, most recent first. -/
structure Frame where
  alts : List Rx
  items : List Rx
  quantifiable : Bool
  deriving DecidableEq, Repr

/-- The empty frame opened by `(` and at the start of the pattern. -/
def Frame.empty : Frame := ⟨[], [], false⟩

/-- The expression a frame stands for once it is finished. -/
def Frame.close (f : Frame) : Rx :=
  f.alts.foldl (fun acc a => Rx.alt a acc) (seqOf f.items.reverse)

/-- Append an item to the current alternative. -/
def Frame.push (f : Frame) (r : Rx) (q : Bool) : Frame :=
  { f with items := r :: f.items, quantifiable := q }

/-- Apply a quantifier to the last item; there must be one and it must not
already carry a quantifier. -/
def Frame.quantify (f : Frame) (q : Rx → Rx) : Option Frame :=
  if f.quantifiable then
    match f.items with
    | [] => none
    | r :: rs => some { f with items := q r :: rs, quantifiable := false }
  else none

/-- The reader's state: the group being read, the enclosing groups, and
whether the previous character was an unconsumed backslash. -/
structure Reader where
  cur : Frame
  stack : List Frame
  escaped : Bool
  deriving DecidableEq, Repr

/-- Read one character of the pattern; `none` when the pattern is rejected. -/
def Reader.step (st : Reader) (c : Char) : Option Reader :=
  if st.escaped then
    if c.isAlphanum then none
    else some ⟨st.cur.push (Rx.lit c) true, st.stack, false⟩
  else if c = '(' then some ⟨Frame.empty, st.cur :: st.stack, false⟩
  else if c = ')' then
    match st.stack with
    | [] => none
    | parent :: rest => some ⟨parent.push st.cur.close true, rest, false⟩
  else if c = '|' then
    some ⟨⟨seqOf st.cur.items.reverse :: st.cur.alts, [], false⟩, st.stack, false⟩
  else if c = '*' then
    (st.cur.quantify Rx.star).map (fun f => ⟨f, st.stack, false⟩)
  else if c = '+' then
    (st.cur.quantify (fun r => Rx.seq r (Rx.star r))).map (fun f => ⟨f, st.stack, false⟩)
  else if c = '?' then
    (st.cur.quantify (fun r => Rx.alt r Rx.eps)).map (fun f => ⟨f, st.stack, false⟩)
  else if c = '.' then some ⟨st.cur.push Rx.dot true, st.stack, false⟩
  else if c = '^' then some ⟨st.cur.push Rx.bol false, st.stack, false⟩
  else if c = '$' then some ⟨st.cur.push Rx.eol false, st.stack, false⟩
  else if c = '\\' then some ⟨st.cur, st.stack, true⟩
  else if c = '[' ∨ c = '{' then none
  else some ⟨st.cur.push (Rx.lit c) true, st.stack, false⟩

/-- Read a pattern from left to right; at the end no group may be open and no
backslash pending. -/
def parse : List Char → Reader → Option Rx
  | [], st =>
    if st.escaped then none
    else
      match st.stack with
      | [] => some st.cur.close
      | _ :: _ => none
  | c :: cs, st =>
    match st.step c with
    | none => none
    | some st1 => parse cs st1

/-- Read a pattern of the fragment; `none` when the pattern is outside the
fragment or ill formed. -/
def compile (pattern : String) : Option Rx := parse pattern.data ⟨Frame.empty, [], false⟩

/-- Saturate a set of positions under one more round of `step`, `k` times. -/
def iterEnds (step : List Char → List (List Char)) : Nat → List (List Char) → List (List Char)
  | 0, acc => acc
  | k + 1, acc => iterEnds step k (acc ++ acc.flatMap step).dedup

/-- All ways to match `r` at the front of `s`, each given by what is left of
`s` after the match; `n` is the length of the whole subject, so that `^` can
tell the start.  A literal matches a character that folds to the same
character under `fold`. -/
def Rx.ends (fold : Char → Char) (n : Nat) : Rx → List Char → List (List Char)
  | Rx.eps, s => [s]
  | Rx.lit c, s =>
    match s with
    | [] => []
    | d :: t => if fold d = fold c then [t] else []
  | Rx.dot, s =>
    match s with
    | [] => []
    | d :: t => if d = '\n' then [] else [t]
  | Rx.bol, s => if s.length = n then [s] else []
  | Rx.eol, s => if s = [] ∨ s = ['\n'] then [s] else []
  | Rx.seq a b, s => (Rx.ends fold n a s).flatMap (Rx.ends fold n b)
  | Rx.alt a b, s => Rx.ends fold n a s ++ Rx.ends fold n b s
  | Rx.star a, s => iterEnds (Rx.ends fold n a) (s.length + 1) [s]

/-- An unanchored search: does `r` match somewhere in `subject`? -/
def Rx.search (r : Rx) (fold : Char → Char) (subject : String) : Bool :=
  subject.data.tails.any (fun t => !(r.ends fold subject.data.length t).isEmpty)

/-! ## Documents and the store -/

/-- A Post document: the properties the controller reads and writes.
`image` is the property set by `createPost`, `imageUrl` the one assigned by
`updatePost` (absent until then). -/
structure Post where
  _id : String
  userId : String
  title : String
  type : String
  description : String
  category : String
  location : String
  image : String
  imageUrl : Option String
  createdAt : Nat
  deriving DecidableEq, Repr

/-- The public part of a user document, as selected by
`populate("userId", "username email")`. -/
structure User where
  _id : String
  username : String
  email : String
  deriving DecidableEq, Repr

/-- The document store: the Post collection and the users `populate` reads. -/
structure Db where
  posts : List Post
  users : List User
  deriving DecidableEq, Repr

/-- What the outside world answers during one request: the upload helper, the
identifier and timestamp given to a new document, and whether each awaited
store call rejects.  `uploadImageToImageKit` is the helper imported from
`../utils/imageKit.js`: given the path of the staged file it resolves with a
URL or with nothing, or it rejects.  `lowerCase` is the method
`String.prototype.toLowerCase` of the runtime.  `caseFold` is the case folding
of the store's pattern engine under option `i`.  `otherPattern` is what that
engine makes of a pattern `compile` does not read: it refuses the pattern, or
it tells for each text whether the pattern is found in it. -/
structure Env where
  uploadImageToImageKit : String → Promise (Option String)
  newId : String
  now : Nat
  findFails : Bool
  findByIdFails : Bool
  saveFails : Bool
  deleteOneFails : Bool
  lowerCase : String → String
  caseFold : Char → Char
  otherPattern : String → Option (String → Bool)

/-- What the store's pattern engine makes of a `$regex` pattern under option
`i`: it refuses the pattern (`none`), or it tells for each text whether the
pattern is found in it.  A pattern of the modelled fragment is searched by
`Rx.search`; for any other pattern the answer is the environment's. -/
def Env.matcher (env : Env) (pattern : String) : Option (String → Bool) :=
  match compile pattern with
  | some r => some (r.search env.caseFold)
  | none => env.otherPattern pattern

/-- The first document with the given `_id`, as `Post.findById(id)` resolves it. -/
def Db.findById (db : Db) (id : String) : Option Post :=
  db.posts.find? (fun p => p._id == id)

/-- Replace the first document carrying the `_id` of `p` by `p`. -/
def replaceFirst (p : Post) : List Post → List Post
  | [] => []
  | q :: qs => if q._id == p._id then p :: qs else q :: replaceFirst p qs

/-- Remove the first document with the given `_id`. -/
def eraseFirst (id : String) : List Post → List Post
  | [] => []
  | q :: qs => if q._id == id then qs else q :: eraseFirst id qs

/-- The call `newPost.save()` on a new document: it is inserted, unless the
store fails or already holds a document with that `_id`. -/
def Db.insert (env : Env) (db : Db) (p : Post) : Promise Db :=
  if env.saveFails || (db.findById p._id).isSome then Promise.rejected
  else Promise.resolved { db with posts := db.posts ++ [p] }

/-- The call `post.save()` on a document that was loaded from the store. -/
def Db.save (env : Env) (db : Db) (p : Post) : Promise Db :=
  if env.saveFails then Promise.rejected
  else Promise.resolved { db with posts := replaceFirst p db.posts }

/-- The call `post.deleteOne()`. -/
def Db.deleteOne (env : Env) (db : Db) (p : Post) : Promise Db :=
  if env.deleteOneFails then Promise.rejected
  else Promise.resolved { db with posts := eraseFirst p._id db.posts }

/-- The query object built by `getAllPosts`: for each key, absent or the value
to match; `location` holds the `$regex` pattern (option `i`). -/
structure Filter where
  type : Option String
  category : Option String
  location : Option String
  deriving DecidableEq, Repr

/-- Does a document satisfy the filter, `found` being the test the pattern
engine derived from the pattern of the filter, if it has one? -/
def Filter.accepts (f : Filter) (found : Option (String → Bool)) (p : Post) : Bool :=
  (match f.type with
    | none => true
    | some t => p.type == t) &&
  (match f.category with
    | none => true
    | some c => p.category == c) &&
  (match found with
    | none => true
    | some m => m p.location)

/-- A listed document: `userId` has been replaced by the public part of the
owner, or by null when there is no such user. -/
structure PopulatedPost where
  doc : Post
  userId : Option User
  deriving DecidableEq, Repr

/-- The step `.populate("userId", "username email")` on one document. -/
def Db.populate (db : Db) (p : Post) : PopulatedPost :=
  ⟨p, db.users.find? (fun u => u._id == p.userId)⟩

/-- The query `Post.find(filter).populate(...).sort({ createdAt: -1 })`:
the accepted documents, newest first, each populated.  It rejects when the
store fails or the pattern engine refuses the pattern. -/
def Db.find (env : Env) (db : Db) (f : Filter) : Promise (List PopulatedPost) :=
  if env.findFails then Promise.rejected
  else
    match f.location with
    | none =>
      Promise.resolved
        (((db.posts.filter (f.accepts none)).insertionSort
          (fun a b => b.createdAt ≤ a.createdAt)).map db.populate)
    | some pattern =>
      match env.matcher pattern with
      | none => Promise.rejected
      | some m =>
        Promise.resolved
          (((db.posts.filter (f.accepts (some m))).insertionSort
            (fun a b => b.createdAt ≤ a.createdAt)).map db.populate)

/-! ## Requests and responses -/

/-- The identity attached to the request by the authentication middleware. -/
structure Auth where
  userId : String
  deriving DecidableEq, Repr

/-- The staged upload attached to the request by the multipart middleware. -/
structure File where
  path : String
  deriving DecidableEq, Repr

/-- The route parameters of update and delete. -/
structure Params where
  id : String
  deriving DecidableEq, Repr

/-- The body read by `createPost`. -/
structure CreateBody where
  title : Option String
  type : Option String
  description : Option String
  category : Option String
  location : Option String
  deriving DecidableEq, Repr

/-- The request handled by `createPost`. -/
structure CreateRequest where
  body : CreateBody
  file : Option File
  auth : Auth
  deriving DecidableEq, Repr

/-- The query string read by `getAllPosts`. -/
structure Query where
  type : Option String
  category : Option String
  location : Option String
  deriving DecidableEq, Repr

/-- The request handled by `getAllPosts`. -/
structure ListRequest where
  query : Query
  deriving DecidableEq, Repr

/-- The body read by `updatePost`. -/
structure UpdateBody where
  title : Option String
  type : Option String
  description : Option String
  category : Option String
  location : Option String
  imageUrl : Option String
  deriving DecidableEq, Repr

/-- The request handled by `updatePost`. -/
structure UpdateRequest where
  params : Params
  body : UpdateBody
  auth : Auth
  deriving DecidableEq, Repr

/-- The request handled by `deletePost`. -/
structure DeleteRequest where
  params : Params
  auth : Auth
  deriving DecidableEq, Repr

/-- The `data` member of a response body. -/
inductive Payload where
  | post (p : Post)
  | posts (ps : List PopulatedPost)
  deriving DecidableEq, Repr

/-- A response: the status code and the members of the JSON body, each absent
or present with its value. -/
structure Response where
  status : Nat
  success : Option Bool
  message : Option String
  count : Option Nat
  data : Option Payload
  deriving DecidableEq, Repr

/-- What a handler did: the response it sent, the store afterwards and the
file paths it handed to the upload helper. -/
structure Outcome where
  response : Response
  db : Db
  uploads : List String
  deriving DecidableEq, Repr

/-! ## The response bodies sent by the handlers -/

/-- A body `{ success: false, message }` sent with the given status. -/
def failure (status : Nat) (message : String) : Response :=
  ⟨status, some false, some message, none, none⟩

/-- Status 400, `"All fields are required"` (`MissingFields`). -/
def missingFields : Response := failure 400 "All fields are required"

/-- Status 400, `"Type must be either 'lost' or 'found'"` (`InvalidType`). -/
def invalidType : Response := failure 400 "Type must be either 'lost' or 'found'"

/-- Status 400 with the body `{ message: "No image file uploaded" }` (`MissingImage`). -/
def missingImage : Response := ⟨400, none, some "No image file uploaded", none, none⟩

/-- Status 500 with the body `{ message: "Image upload failed" }` (`ImageUploadFailed`). -/
def imageUploadFailed : Response := ⟨500, none, some "Image upload failed", none, none⟩

/-- Status 404, `"Post not found"` (`NotFound`). -/
def notFound : Response := failure 404 "Post not found"

/-- Status 403, `"Not authorized"` (`Forbidden`). -/
def forbidden : Response := failure 403 "Not authorized"

/-- Status 500, the generic body sent from every `catch` block (`InternalError`). -/
def serverError : Response := failure 500 "Server error. Please try again later."

/-- Status 201, the body sent by `createPost` on success. -/
def created (p : Post) : Response :=
  ⟨201, some true, some "Post created successfully", none, some (Payload.post p)⟩

/-- Status 200, the body sent by `getAllPosts` on success. -/
def listed (ps : List PopulatedPost) : Response :=
  ⟨200, some true, none, some ps.length, some (Payload.posts ps)⟩

/-- Status 200, the body sent by `updatePost` on success. -/
def updated (p : Post) : Response :=
  ⟨200, some true, some "Post updated successfully", none, some (Payload.post p)⟩

/-- Status 200, the body sent by `deletePost` on success. -/
def deleted : Response :=
  ⟨200, some true, some "Post deleted successfully", none, none⟩

/-! ## The handlers -/

/-- The string held by a field; used where the field is known to be present. -/
def text (v : Option String) : String := v.getD ""

/-- The handler `createPost`. -/
def createPost (env : Env) (db : Db) (req : CreateRequest) : Outcome :=
  let title := req.body.title
  let type := req.body.type
  let description := req.body.description
  let category := req.body.category
  let location := req.body.location
  if !truthy title || !truthy type || !truthy description || !truthy category ||
      !truthy location then
    ⟨missingFields, db, []⟩
  else if !isAllowedType (text type) then
    ⟨invalidType, db, []⟩
  else
    match req.file with
    | none => ⟨missingImage, db, []⟩
    | some file =>
      match env.uploadImageToImageKit file.path with
      | Promise.rejected => ⟨serverError, db, [file.path]⟩
      | Promise.resolved imageUrl =>
        if !truthy imageUrl then
          ⟨imageUploadFailed, db, [file.path]⟩
        else
          let newPost : Post :=
            { _id := env.newId
              userId := req.auth.userId
              title := text title
              type := text type
              description := text description
              category := text category
              location := text location
              image := text imageUrl
              imageUrl := none
              createdAt := env.now }
          match db.insert env newPost with
          | Promise.rejected => ⟨serverError, db, [file.path]⟩
          | Promise.resolved db1 => ⟨created newPost, db1, [file.path]⟩

/-- The value stored under a filter key: the query value when it is truthy. -/
def given (v : Option String) : Option String :=
  if truthy v then some (text v) else none

/-- The filter `getAllPosts` builds from the query string. -/
def buildFilter (env : Env) (query : Query) : Filter :=
  { type := (given query.type).map env.lowerCase
    category := (given query.category).map env.lowerCase
    location := given query.location }

/-- The handler `getAllPosts`. -/
def getAllPosts (env : Env) (db : Db) (req : ListRequest) : Outcome :=
  match db.find env (buildFilter env req.query) with
  | Promise.rejected => ⟨serverError, db, []⟩
  | Promise.resolved posts => ⟨listed posts, db, []⟩

/-- The handler `updatePost`. -/
def updatePost (env : Env) (db : Db) (req : UpdateRequest) : Outcome :=
  let id := req.params.id
  let body := req.body
  if env.findByIdFails then ⟨serverError, db, []⟩
  else
    match db.findById id with
    | none => ⟨notFound, db, []⟩
    | some post =>
      if post.userId != req.auth.userId then ⟨forbidden, db, []⟩
      else if truthy body.type && !isAllowedType (text body.type) then
        ⟨invalidType, db, []⟩
      else
        let post1 : Post :=
          { post with
            title := orElse body.title post.title
            type := orElse body.type post.type
            description := orElse body.description post.description
            category := orElse body.category post.category
            location := orElse body.location post.location
            imageUrl := orElseOpt body.imageUrl post.imageUrl }
        match db.save env post1 with
        | Promise.rejected => ⟨serverError, db, []⟩
        | Promise.resolved db1 => ⟨updated post1, db1, []⟩

/-- The handler `deletePost`. -/
def deletePost (env : Env) (db : Db) (req : DeleteRequest) : Outcome :=
  let id := req.params.id
  if env.findByIdFails then ⟨serverError, db, []⟩
  else
    match db.findById id with
    | none => ⟨notFound, db, []⟩
    | some post =>
      if post.userId != req.auth.userId then ⟨forbidden, db, []⟩
      else
        match db.deleteOne env post with
        | Promise.rejected => ⟨serverError, db, []⟩
        | Promise.resolved db1 => ⟨deleted, db1, []⟩

/-! ## Vocabulary of the specification -/

/-- A request field that is absent or the empty string. -/
def absentOrEmpty (v : Option String) : Prop := v = none ∨ v = some ""

instance (v : Option String) : Decidable (absentOrEmpty v) := by
  unfold absentOrEmpty; infer_instance

/-- The type, put in lower case, is `lost` or `found`. -/
def validType (type : String) : Prop :=
  toLowerCase type = "lost" ∨ toLowerCase type = "found"

instance (type : String) : Decidable (validType type) := by
  unfold validType; infer_instance

/-- Some required text field of a create body is absent or empty. -/
def CreateBody.incomplete (b : CreateBody) : Prop :=
  absentOrEmpty b.title ∨ absentOrEmpty b.type ∨ absentOrEmpty b.description ∨
    absentOrEmpty b.category ∨ absentOrEmpty b.location

instance (b : CreateBody) : Decidable b.incomplete := by
  unfold CreateBody.incomplete; infer_instance

/-- The text `hay` contains `needle` as a substring, two characters counting
as equal when they fold to the same character under `fold`. -/
def containsIgnoreCase (fold : Char → Char) (hay needle : String) : Prop :=
  needle.data.map fold <:+: hay.data.map fold

instance (fold : Char → Char) (hay needle : String) :
    Decidable (containsIgnoreCase fold hay needle) := by
  unfold containsIgnoreCase; infer_instance

/-- The document after the six assignments of `updatePost` (lines 117 to 122)
have been made on `post` with the values of `body`. -/
def applyUpdate (body : UpdateBody) (post : Post) : Post :=
  { post with
    title := orElse body.title post.title
    type := orElse body.type post.type
    description := orElse body.description post.description
    category := orElse body.category post.category
    location := orElse body.location post.location
    imageUrl := orElseOpt body.imageUrl post.imageUrl }

/-- The stored Posts a filter accepts, newest first, each populated: what
`Db.find` resolves with once the pattern engine has derived the test `found`
from the pattern of the filter, if it has one. -/
def Db.select (db : Db) (f : Filter) (found : Option (String → Bool)) :
    List PopulatedPost :=
  ((db.posts.filter (f.accepts found)).insertionSort
    (fun a b => b.createdAt ≤ a.createdAt)).map db.populate

/-- The listing `ps` holds the stored Posts that satisfy `ok`, each once and
each populated, and nothing else. -/
def Db.lists (db : Db) (ps : List PopulatedPost) (ok : Post → Bool) : Prop :=
  (ps.map (fun x => x.doc)).Perm (db.posts.filter ok) ∧ ∀ x ∈ ps, x = db.populate x.doc

/-- No two stored Posts carry the same `_id`, as the store guarantees for its
primary key. -/
def Db.uniqueIds (db : Db) : Prop := (db.posts.map (fun p => p._id)).Nodup

instance (db : Db) : Decidable db.uniqueIds := by
  unfold Db.uniqueIds; infer_instance

/-- Every stored Post has a type that is `lost` or `found` once put in lower
case. -/
def Db.typesAllowed (db : Db) : Prop := ∀ p ∈ db.posts, validType p.type

/-- One call of the service: the handler invoked and its request. -/
inductive Call where
  | create (req : CreateRequest)
  | list (req : ListRequest)
  | update (req : UpdateRequest)
  | delete (req : DeleteRequest)
  deriving DecidableEq, Repr

/-- Serve one call in the given environment. -/
def serve (env : Env) (db : Db) : Call → Outcome
  | Call.create req => createPost env db req
  | Call.list req => getAllPosts env db req
  | Call.update req => updatePost env db req
  | Call.delete req => deletePost env db req

/-- The store after a sequence of calls, each served in its own environment. -/
def run (db : Db) : List (Env × Call) → Db
  | [] => db
  | (env, call) :: rest => run (serve env db call).db rest

/-! ## Sample data -/

/-- A registered user. -/
def alice : User := ⟨"alice", "alice", "alice@example.org"⟩

/-- A stored Post owned by `alice`. -/
def umbrellaPost : Post :=
  { _id := "p1"
    userId := "alice"
    title := "Found Umbrella"
    type := "found"
    description := "blue, folding"
    category := "accessory"
    location := "Central Park"
    image := "https://ik.example/umbrella.jpg"
    imageUrl := none
    createdAt := 10 }

/-- A store holding one Post. -/
def sampleDb : Db := ⟨[umbrellaPost], [alice]⟩

/-- The lower-case form of a letter of the ASCII and Latin-1 ranges; any other
character is left as it is. -/
def latin1Lower (c : Char) : Char :=
  if 0xC0 ≤ c.toNat ∧ c.toNat ≤ 0xDE ∧ c.toNat ≠ 0xD7 then Char.ofNat (c.toNat + 32)
  else c.toLower

/-- An environment in which every collaborator answers.  Its lower-casing and
case folding are those of the ASCII and Latin-1 letters, which is what the
runtime and the store do on text of these ranges, the sample data included; no
sample uses a pattern outside the fragment, and this environment refuses
them. -/
def sampleEnv : Env :=
  { uploadImageToImageKit := fun _ => Promise.resolved (some "https://ik.example/wallet.jpg")
    newId := "p2"
    now := 20
    findFails := false
    findByIdFails := false
    saveFails := false
    deleteOneFails := false
    lowerCase := fun s => ⟨s.data.map latin1Lower⟩
    caseFold := latin1Lower
    otherPattern := fun _ => none }

/-- An environment in which the upload helper resolves without a URL. -/
def noUrlEnv : Env := 
  { sampleEnv with uploadImageToImageKit := fun _ => Promise.resolved none }

/-- The create body of the example scenario. -/
def walletBody : CreateBody :=
  { title := some "Lost Wallet"
    type := some "LOST"
    description := some "black leather"
    category := some "wallet"
    location := some "Central Park" }

/-- The staged file of the example scenario. -/
def walletFile : File := ⟨"uploads/wallet.jpg"⟩

/-- The document `createPost` builds from `walletBody` in `sampleEnv` for `alice`. -/
def walletPost : Post :=
  { _id := "p2"
    userId := "alice"
    title := "Lost Wallet"
    type := "LOST"
    description := "black leather"
    category := "wallet"
    location := "Central Park"
    image := "https://ik.example/wallet.jpg"
    imageUrl := none
    createdAt := 20 }

/-- A store without Posts. -/
def emptyDb : Db := ⟨[], [alice]⟩

/-- An update body that supplies nothing. -/
def emptyUpdate : UpdateBody := ⟨none, none, none, none, none, none⟩

/-- A create body whose location contains parentheses. -/
def keysBody : CreateBody :=
  { title := some "Lost Keys"
    type := some "lost"
    description := some "three keys on a ring"
    category := some "keys"
    location := some "Main St. (north)" }

/-- The document `createPost` builds from `keysBody` in `sampleEnv` for `alice`. -/
def keysPost : Post :=
  { _id := "p2"
    userId := "alice"
    title := "Lost Keys"
    type := "lost"
    description := "three keys on a ring"
    category := "keys"
    location := "Main St. (north)"
    image := "https://ik.example/wallet.jpg"
    imageUrl := none
    createdAt := 20 }

/-- A create body whose category is written with a capital letter. -/
def bagBody : CreateBody :=
  { title := some "Lost Bag"
    type := some "lost"
    description := some "grey backpack"
    category := some "Bags"
    location := some "Central Park" }

/-- The document `createPost` builds from `bagBody` in `sampleEnv` for `alice`. -/
def bagPost : Post :=
  { _id := "p2"
    userId := "alice"
    title := "Lost Bag"
    type := "lost"
    description := "grey backpack"
    category := "Bags"
    location := "Central Park"
    image := "https://ik.example/wallet.jpg"
    imageUrl := none
    createdAt := 20 }

/-! ## Lemmas on the helpers -/

theorem truthy_eq_false_iff (v : Option String) : truthy v = false ↔ absentOrEmpty v := by
  cases v with
  | none => simp [truthy, absentOrEmpty]
  | some s => simp [truthy, absentOrEmpty]

theorem truthy_eq_true_iff (v : Option String) : truthy v = true ↔ ¬ absentOrEmpty v := by
  rw [← truthy_eq_false_iff]; simp

theorem orElse_of_absentOrEmpty (a : Option String) (b : String) (h : absentOrEmpty a) :
    orElse a b = b := by
  rcases h with rfl | rfl <;> simp [orElse]

theorem orElse_of_truthy (a : Option String) (b : String) (h : truthy a = true) :
    orElse a b = text a := by
  cases a with
  | none => simp [truthy] at h
  | some s =>
    simp only [truthy, bne_iff_ne, ne_eq] at h
    simp [orElse, text, h]

theorem orElse_ne_empty (a : Option String) (b : String) (h : b ≠ "") : orElse a b ≠ "" := by
  cases a with
  | none => simpa [orElse] using h
  | some s =>
    by_cases hs : s = ""
    · simpa [orElse, hs] using h
    · simp [orElse, hs]

theorem orElseOpt_of_absentOrEmpty (a b : Option String) (h : absentOrEmpty a) :
    orElseOpt a b = b := by
  rcases h with rfl | rfl <;> simp [orElseOpt]

theorem given_of_truthy (v : Option String) (h : truthy v = true) : given v = some (text v) := by
  simp [given, h]

theorem given_of_absentOrEmpty (v : Option String) (h : absentOrEmpty v) : given v = none := by
  simp [given, (truthy_eq_false_iff v).mpr h]

theorem isAllowedType_iff (type : String) : isAllowedType type = true ↔ validType type := by
  simp [isAllowedType, validType]

theorem isAllowedType_eq_false_iff (type : String) :
    isAllowedType type = false ↔ ¬ validType type := by
  rw [← isAllowedType_iff]; simp

/-! ## Lemmas on the pattern reader and the matcher -/

theorem step_literal (st : Reader) (c : Char) (he : st.escaped = false)
    (hc : isMeta c = false) :
    st.step c = some ⟨st.cur.push (Rx.lit c) true, st.stack, false⟩ := by
  simp only [isMeta, Bool.or_eq_false_iff, beq_eq_false_iff_ne, ne_eq] at hc
  obtain ⟨⟨⟨⟨⟨⟨⟨⟨⟨⟨⟨⟨⟨h1, h2⟩, h3⟩, h4⟩, h5⟩, h6⟩, h7⟩, h8⟩, h9⟩, h10⟩, h11⟩, _⟩, h13⟩, _⟩ := hc
  simp [Reader.step, he, h1, h2, h3, h4, h5, h6, h7, h8, h9, h10, h11, h13]

theorem parse_literals (cs : List Char) (h : ∀ c ∈ cs, isMeta c = false) :
    ∀ (cur : Frame) (stack : List Frame),
      parse cs ⟨cur, stack, false⟩ =
        parse [] ⟨⟨cur.alts, (cs.map Rx.lit).reverse ++ cur.items,
          if cs = [] then cur.quantifiable else true⟩, stack, false⟩ := by
  induction cs with
  | nil => intro cur stack; simp
  | cons c cs ih =>
    intro cur stack
    have hc : isMeta c = false := h c (List.mem_cons_self _ _)
    have hcs : ∀ d ∈ cs, isMeta d = false := fun d hd => h d (List.mem_cons_of_mem _ hd)
    conv_lhs => rw [parse, step_literal _ c rfl hc]
    simp only
    rw [ih hcs]
    simp [Frame.push]

theorem compile_literals (q : String) (h : ∀ c ∈ q.data, isMeta c = false) :
    compile q = some (seqOf (q.data.map Rx.lit)) := by
  unfold compile
  rw [parse_literals _ h]
  simp [parse, Frame.close, Frame.empty]

theorem ends_literals (fold : Char → Char) (n : Nat) (cs : List Char) :
    ∀ s : List Char, ((seqOf (cs.map Rx.lit)).ends fold n s).isEmpty = false ↔
      cs.map fold <+: s.map fold := by
  induction cs with
  | nil => intro s; simp [seqOf, Rx.ends]
  | cons c cs ih =>
    intro s
    cases s with
    | nil => simp [seqOf, Rx.ends]
    | cons d t =>
      simp only [List.map_cons, seqOf, Rx.ends, List.cons_prefix_cons]
      by_cases hd : fold d = fold c
      · simp [hd, ih t]
      · have hd2 : ¬ fold c = fold d := fun e => hd e.symm
        simp [hd, hd2]

theorem suffix_map_iff {α β : Type} (f : α → β) (l : List α) (t : List β) :
    t <:+ l.map f ↔ ∃ s, s <:+ l ∧ t = s.map f := by
  constructor
  · rintro ⟨pre, hpre⟩
    obtain ⟨l1, l2, rfl, -, h2⟩ := List.map_eq_append_iff.mp hpre.symm
    exact ⟨l2, List.suffix_append _ _, h2.symm⟩
  · rintro ⟨s, hs, rfl⟩
    exact hs.map f

theorem search_literals (fold : Char → Char) (q subject : String) :
    (seqOf (q.data.map Rx.lit)).search fold subject = true ↔
      containsIgnoreCase fold subject q := by
  unfold Rx.search containsIgnoreCase
  simp only [List.any_eq_true, List.mem_tails, Bool.not_eq_true']
  rw [List.infix_iff_prefix_suffix]
  constructor
  · rintro ⟨t, ht, he⟩
    exact ⟨t.map fold, (ends_literals _ _ _ t).mp he, ht.map _⟩
  · rintro ⟨t, hp, hs⟩
    obtain ⟨s, hs1, rfl⟩ := (suffix_map_iff _ _ _).mp hs
    exact ⟨s, hs1, (ends_literals _ _ _ s).mpr hp⟩

/-- The pattern engine searches a pattern made of literal characters as
`Rx.search` does. -/
theorem matcher_literals (env : Env) (q : String) (h : ∀ c ∈ q.data, isMeta c = false) :
    env.matcher q = some ((seqOf (q.data.map Rx.lit)).search env.caseFold) := by
  simp [Env.matcher, compile_literals q h]

/-! ## Lemmas on the store -/

theorem findById_id (db : Db) (id : String) (post : Post) (h : db.findById id = some post) :
    post._id = id := by
  have := List.find?_some h
  simpa using this

theorem find?_replaceFirst (p post : Post) (id : String) (hp : p._id = id) :
    ∀ posts : List Post, posts.find? (fun q => q._id == id) = some post →
      (replaceFirst p posts).find? (fun q => q._id == id) = some p := by
  intro posts
  induction posts with
  | nil => intro h; simp at h
  | cons q qs ih =>
    intro h
    by_cases hq : q._id = id
    · simp [replaceFirst, hq, hp]
    · have hq2 : ¬ q._id = p._id := by rw [hp]; exact hq
      rw [List.find?_cons_of_neg _ (by simpa using hq)] at h
      simp only [replaceFirst, beq_iff_eq, hq2, if_false]
      rw [List.find?_cons_of_neg _ (by simpa using hq)]
      exact ih h

/-! ## Lemmas on the listing -/

theorem mem_map_populate (db : Db) (p : Post) (l : List Post) :
    db.populate p ∈ l.map db.populate ↔ p ∈ l := by
  simp only [List.mem_map]
  constructor
  · rintro ⟨a, ha, he⟩
    have : a = p := congrArg PopulatedPost.doc he
    exact this ▸ ha
  · intro h
    exact ⟨p, h, rfl⟩

theorem accepts_some (f : Filter) (m : String → Bool) (p : Post) :
    f.accepts (some m) p = (f.accepts none p && m p.location) := by
  simp [Filter.accepts]

/-- What `Db.find` resolves with when the store answers and the pattern is
made of literal characters. -/
theorem find_literal (env : Env) (db : Db) (f : Filter) (q : String)
    (hq : f.location = some q) (hlit : ∀ c ∈ q.data, isMeta c = false)
    (hfind : env.findFails = false) :
    ∃ posts, db.find env f = Promise.resolved posts ∧
      ∀ p : Post, db.populate p ∈ posts ↔
        (p ∈ db.posts ∧ f.accepts none p = true ∧
          containsIgnoreCase env.caseFold p.location q) := by
  refine ⟨((db.posts.filter
      (f.accepts (some ((seqOf (q.data.map Rx.lit)).search env.caseFold)))).insertionSort
      (fun a b => b.createdAt ≤ a.createdAt)).map db.populate, ?_, ?_⟩
  · simp only [Db.find, hfind, hq, matcher_literals env q hlit]
    rfl
  · intro p
    rw [mem_map_populate, List.mem_insertionSort, List.mem_filter, accepts_some,
      Bool.and_eq_true, search_literals]

/-! ## Lemmas on `createPost` -/

theorem createPost_incomplete (env : Env) (db : Db) (req : CreateRequest)
    (h : req.body.incomplete) : createPost env db req = ⟨missingFields, db, []⟩ := by
  simp only [CreateBody.incomplete, ← truthy_eq_false_iff] at h
  unfold createPost
  rcases h with h | h | h | h | h <;> simp [h]

theorem createPost_complete (env : Env) (db : Db) (req : CreateRequest)
    (h : ¬ req.body.incomplete) :
    createPost env db req =
      if !isAllowedType (text req.body.type) then ⟨invalidType, db, []⟩
      else
        match req.file with
        | none => ⟨missingImage, db, []⟩
        | some file =>
          match env.uploadImageToImageKit file.path with
          | Promise.rejected => ⟨serverError, db, [file.path]⟩
          | Promise.resolved imageUrl =>
            if !truthy imageUrl then ⟨imageUploadFailed, db, [file.path]⟩
            else
              match db.insert env
                { _id := env.newId
                  userId := req.auth.userId
                  title := text req.body.title
                  type := text req.body.type
                  description := text req.body.description
                  category := text req.body.category
                  location := text req.body.location
                  image := text imageUrl
                  imageUrl := none
                  createdAt := env.now } with
              | Promise.rejected => ⟨serverError, db, [file.path]⟩
              | Promise.resolved db1 =>
                ⟨created
                  { _id := env.newId
                    userId := req.auth.userId
                    title := text req.body.title
                    type := text req.body.type
                    description := text req.body.description
                    category := text req.body.category
                    location := text req.body.location
                    image := text imageUrl
                    imageUrl := none
                    createdAt := env.now }, db1, [file.path]⟩ := by
  simp only [CreateBody.incomplete, ← truthy_eq_false_iff, not_or, Bool.not_eq_false] at h
  unfold createPost
  simp [h]

theorem createPost_created (env : Env) (db db1 : Db) (req : CreateRequest) (p : Post)
    (ups : List String) (h : createPost env db req = ⟨created p, db1, ups⟩) :
    ¬ req.body.incomplete ∧ validType (text req.body.type) ∧
    p.type = text req.body.type ∧ p.category = text req.body.category ∧
    p.location = text req.body.location ∧ db1.posts = db.posts ++ [p] := by
  by_cases hinc : req.body.incomplete
  · rw [createPost_incomplete env db req hinc] at h
    simp [missingFields, failure, created] at h
  rw [createPost_complete env db req hinc] at h
  refine ⟨hinc, ?_⟩
  cases hty : isAllowedType (text req.body.type) with
  | false => simp [hty, invalidType, failure, created] at h
  | true =>
    simp only [hty, Bool.not_true, Bool.false_eq_true, if_false] at h
    refine ⟨(isAllowedType_iff _).mp hty, ?_⟩
    cases hfile : req.file with
    | none => simp [hfile, missingImage, created] at h
    | some file =>
      simp only [hfile] at h
      cases hup : env.uploadImageToImageKit file.path with
      | rejected => simp [hup, serverError, failure, created] at h
      | resolved imageUrl =>
        simp only [hup] at h
        cases hurl : truthy imageUrl with
        | false => simp [hurl, imageUploadFailed, created] at h
        | true =>
          simp only [hurl, Bool.not_true, Bool.false_eq_true, if_false] at h
          simp only [Db.insert] at h
          split at h
          · simp [serverError, failure, created] at h
          · simp only [Outcome.mk.injEq, created, Response.mk.injEq, Option.some.injEq,
              Payload.post.injEq, true_and] at h
            obtain ⟨hp, hdb, -⟩ := h
            subst hp
            subst hdb
            rename_i hins
            split at hins
            · simp at hins
            · simp only [Promise.resolved.injEq] at hins
              rw [← hins]
              exact ⟨rfl, rfl, rfl, rfl⟩

/-! ## Further lemmas on the handlers and the store -/

theorem text_some (s : String) : text (some s) = s := rfl

theorem truthy_some (s : String) (h : s ≠ "") : truthy (some s) = true := by
  simp [truthy, h]

theorem orElse_orElse (a : Option String) (b : String) : orElse a (orElse a b) = orElse a b := by
  cases a with
  | none => rfl
  | some s => by_cases hs : s = "" <;> simp [orElse, hs]

theorem orElseOpt_orElseOpt (a b : Option String) :
    orElseOpt a (orElseOpt a b) = orElseOpt a b := by
  cases a with
  | none => rfl
  | some s => by_cases hs : s = "" <;> simp [orElseOpt, hs]

theorem replaceFirst_replaceFirst (p : Post) :
    ∀ posts : List Post, replaceFirst p (replaceFirst p posts) = replaceFirst p posts := by
  intro posts
  induction posts with
  | nil => rfl
  | cons q qs ih =>
    by_cases hq : q._id = p._id
    · simp [replaceFirst, hq]
    · simp [replaceFirst, hq, ih]

theorem applyUpdate_applyUpdate (body : UpdateBody) (post : Post) :
    applyUpdate body (applyUpdate body post) = applyUpdate body post := by
  simp [applyUpdate, orElse_orElse, orElseOpt_orElseOpt]

/-- What `updatePost` does once the lookup has found `post`. -/
theorem updatePost_found (env : Env) (db : Db) (req : UpdateRequest) (post : Post)
    (hfind : env.findByIdFails = false) (hpost : db.findById req.params.id = some post) :
    updatePost env db req =
      if post.userId != req.auth.userId then ⟨forbidden, db, []⟩
      else if truthy req.body.type && !isAllowedType (text req.body.type) then
        ⟨invalidType, db, []⟩
      else if env.saveFails then ⟨serverError, db, []⟩
      else ⟨updated (applyUpdate req.body post),
        { db with posts := replaceFirst (applyUpdate req.body post) db.posts }, []⟩ := by
  cases h1 : (post.userId != req.auth.userId) <;>
    cases h2 : (truthy req.body.type && !isAllowedType (text req.body.type)) <;>
    cases h3 : env.saveFails <;>
    simp [updatePost, hfind, hpost, Db.save, applyUpdate, h1, h2, h3]

theorem findById_replaceFirst (db : Db) (id : String) (post p : Post)
    (hpost : db.findById id = some post) (hp : p._id = post._id) :
    Db.findById { db with posts := replaceFirst p db.posts } id = some p :=
  find?_replaceFirst p post _ (hp.trans (findById_id db _ post hpost)) db.posts hpost

theorem eraseFirst_eq_filter (id : String) :
    ∀ posts : List Post, (posts.map (fun p => p._id)).Nodup →
      eraseFirst id posts = posts.filter (fun p => p._id != id) := by
  intro posts
  induction posts with
  | nil => intro _; rfl
  | cons q qs ih =>
    intro h
    rw [List.map_cons, List.nodup_cons] at h
    by_cases hq : q._id = id
    · have hrest : qs.filter (fun p => p._id != id) = qs := by
        rw [List.filter_eq_self]
        intro p hp
        have : p._id ≠ id := by
          intro e
          exact h.1 (List.mem_map.mpr ⟨p, hp, e.trans hq.symm⟩)
        simpa using this
      simp [eraseFirst, hq, hrest]
    · simp [eraseFirst, hq, ih h.2]

theorem find?_filter_ne (id : String) (posts : List Post) :
    (posts.filter (fun p => p._id != id)).find? (fun p => p._id == id) = none := by
  rw [List.find?_eq_none]
  intro p hp
  have := (List.mem_filter.mp hp).2
  simpa using this

theorem given_eq (v : Option String) :
    given v = if absentOrEmpty v then none else some (text v) := by
  by_cases h : absentOrEmpty v
  · simp [h, given_of_absentOrEmpty v h]
  · simp [h, given_of_truthy v ((truthy_eq_true_iff v).mpr h)]

theorem find_eq (env : Env) (db : Db) (f : Filter) (hfind : env.findFails = false) :
    db.find env f =
      match f.location with
      | none => Promise.resolved (db.select f none)
      | some pattern =>
        match env.matcher pattern with
        | none => Promise.rejected
        | some m => Promise.resolved (db.select f (some m)) := by
  simp only [Db.find, hfind, Db.select, Bool.false_eq_true, if_false]

theorem mem_select (db : Db) (f : Filter) (found : Option (String → Bool))
    (x : PopulatedPost) :
    x ∈ db.select f found ↔
      ∃ p, p ∈ db.posts ∧ f.accepts found p = true ∧ db.populate p = x := by
  simp only [Db.select, List.mem_map, List.mem_insertionSort, List.mem_filter, and_assoc]

theorem accepts_iff (f : Filter) (found : Option (String → Bool)) (p : Post) :
    f.accepts found p = true ↔
      (∀ t, f.type = some t → p.type = t) ∧ (∀ c, f.category = some c → p.category = c) ∧
      (∀ m, found = some m → m p.location = true) := by
  cases ht : f.type <;> cases hc : f.category <;> cases found <;>
    simp [Filter.accepts, ht, hc, and_assoc]

theorem accepts_split (t c l : Option String) (found : Option (String → Bool)) (p : Post) :
    Filter.accepts ⟨t, c, l⟩ found p =
      (Filter.accepts ⟨t, none, none⟩ none p && Filter.accepts ⟨none, c, none⟩ none p &&
        Filter.accepts ⟨none, none, l⟩ found p) := by
  simp [Filter.accepts]

theorem mem_select_split (db : Db) (t c l : Option String)
    (found : Option (String → Bool)) (x : PopulatedPost) :
    x ∈ db.select ⟨t, c, l⟩ found ↔
      x ∈ db.select ⟨t, none, none⟩ none ∧ x ∈ db.select ⟨none, c, none⟩ none ∧
        x ∈ db.select ⟨none, none, l⟩ found := by
  simp only [mem_select, accepts_split t c l found, Bool.and_eq_true]
  constructor
  · rintro ⟨p, hp, ⟨⟨h1, h2⟩, h3⟩, rfl⟩
    exact ⟨⟨p, hp, h1, rfl⟩, ⟨p, hp, h2, rfl⟩, ⟨p, hp, h3, rfl⟩⟩
  · rintro ⟨⟨p1, hp1, h1, rfl⟩, ⟨p2, _, h2, e2⟩, ⟨p3, _, h3, e3⟩⟩
    have e2' : p2 = p1 := congrArg PopulatedPost.doc e2
    have e3' : p3 = p1 := congrArg PopulatedPost.doc e3
    subst e2' e3'
    exact ⟨_, hp1, ⟨⟨h1, h2⟩, h3⟩, rfl⟩

theorem select_all_perm (db : Db) :
    ((db.select ⟨none, none, none⟩ none).map (fun x => x.doc)).Perm db.posts := by
  have hfilter : db.posts.filter (Filter.accepts ⟨none, none, none⟩ none) = db.posts := by
    rw [List.filter_eq_self]
    intro p _
    rfl
  have hmap : ∀ l : List Post, (l.map db.populate).map (fun x => x.doc) = l := by
    intro l
    induction l with
    | nil => rfl
    | cons a l ih => simp [Db.populate, ih]
  rw [Db.select, hmap, hfilter]
  exact List.perm_insertionSort _ _

theorem getAllPosts_eq (env : Env) (db : Db) (query : Query) (hfind : env.findFails = false) :
    getAllPosts env db ⟨query⟩ =
      match (buildFilter env query).location with
      | none => ⟨listed (db.select (buildFilter env query) none), db, []⟩
      | some pattern =>
        match env.matcher pattern with
        | none => ⟨serverError, db, []⟩
        | some m => ⟨listed (db.select (buildFilter env query) (some m)), db, []⟩ := by
  simp only [getAllPosts, find_eq env db _ hfind]
  cases hl : (buildFilter env query).location with
  | none => rfl
  | some pattern =>
    simp only
    cases hc : env.matcher pattern <;> rfl

theorem given_none : given none = none := rfl

theorem listed_injective (ps qs : List PopulatedPost) (db : Db)
    (h : (⟨listed ps, db, []⟩ : Outcome) = ⟨listed qs, db, []⟩) : ps = qs := by
  simp only [listed, Outcome.mk.injEq, Response.mk.injEq, Option.some.injEq,
    Payload.posts.injEq] at h
  exact h.1.2.2.2.2

theorem listed_ne_serverError (ps : List PopulatedPost) (db : Db) :
    (⟨serverError, db, []⟩ : Outcome) ≠ ⟨listed ps, db, []⟩ := by
  simp [listed, serverError, failure]

/-! ## What each handler does to the store, and the invariants it keeps -/

theorem createPost_db (env : Env) (db : Db) (req : CreateRequest) :
    (createPost env db req).db = db ∨
    ∃ p : Post, (createPost env db req).db = ⟨db.posts ++ [p], db.users⟩ ∧
      db.findById p._id = none ∧ validType p.type := by
  by_cases hinc : req.body.incomplete
  · rw [createPost_incomplete env db req hinc]; exact Or.inl rfl
  rw [createPost_complete env db req hinc]
  cases hty : isAllowedType (text req.body.type) with
  | false => exact Or.inl (by simp)
  | true =>
    cases hfile : req.file with
    | none => exact Or.inl (by simp)
    | some file =>
      cases hup : env.uploadImageToImageKit file.path with
      | rejected => exact Or.inl (by simp [hup])
      | resolved imageUrl =>
        cases hurl : truthy imageUrl with
        | false => exact Or.inl (by simp [hup, hurl])
        | true =>
          cases hsave : env.saveFails with
          | true => exact Or.inl (by simp [hup, hurl, Db.insert, hsave])
          | false =>
            cases hid : db.findById env.newId with
            | some q => exact Or.inl (by simp [hup, hurl, Db.insert, hsave, hid])
            | none =>
              refine Or.inr
                ⟨{ _id := env.newId
                   userId := req.auth.userId
                   title := text req.body.title
                   type := text req.body.type
                   description := text req.body.description
                   category := text req.body.category
                   location := text req.body.location
                   image := text imageUrl
                   imageUrl := none
                   createdAt := env.now }, ?_, hid, (isAllowedType_iff _).mp hty⟩
              simp [hup, hurl, Db.insert, hsave, hid]

theorem updatePost_db (env : Env) (db : Db) (req : UpdateRequest) :
    (updatePost env db req).db = db ∨
    ∃ post : Post, db.findById req.params.id = some post ∧
      (truthy req.body.type = true → isAllowedType (text req.body.type) = true) ∧
      (updatePost env db req).db =
        ⟨replaceFirst (applyUpdate req.body post) db.posts, db.users⟩ := by
  cases hfind : env.findByIdFails with
  | true => exact Or.inl (by simp [updatePost, hfind])
  | false =>
    cases hpost : db.findById req.params.id with
    | none => exact Or.inl (by simp [updatePost, hfind, hpost])
    | some post =>
      rw [updatePost_found env db req post hfind hpost]
      by_cases h1 : (post.userId != req.auth.userId) = true
      · rw [if_pos h1]; exact Or.inl rfl
      · rw [if_neg h1]
        by_cases h2 : (truthy req.body.type && !isAllowedType (text req.body.type)) = true
        · rw [if_pos h2]; exact Or.inl rfl
        · rw [if_neg h2]
          by_cases h3 : env.saveFails = true
          · rw [if_pos h3]; exact Or.inl rfl
          · rw [if_neg h3]
            refine Or.inr ⟨post, rfl, ?_, rfl⟩
            intro ht
            simpa [ht] using h2

theorem deletePost_db (env : Env) (db : Db) (req : DeleteRequest) :
    (deletePost env db req).db = db ∨
    ∃ id : String, (deletePost env db req).db = ⟨eraseFirst id db.posts, db.users⟩ := by
  cases hfind : env.findByIdFails with
  | true => exact Or.inl (by simp [deletePost, hfind])
  | false =>
    cases hpost : db.findById req.params.id with
    | none => exact Or.inl (by simp [deletePost, hfind, hpost])
    | some post =>
      by_cases h1 : post.userId = req.auth.userId
      · cases hdel : env.deleteOneFails with
        | true => exact Or.inl (by simp [deletePost, hfind, hpost, h1, Db.deleteOne, hdel])
        | false =>
          exact Or.inr ⟨post._id, by simp [deletePost, hfind, hpost, h1, Db.deleteOne, hdel]⟩
      · exact Or.inl (by simp [deletePost, hfind, hpost, h1])

theorem getAllPosts_db (env : Env) (db : Db) (req : ListRequest) :
    (getAllPosts env db req).db = db := by
  unfold getAllPosts
  cases db.find env (buildFilter env req.query) <;> rfl

theorem map_id_replaceFirst (p : Post) :
    ∀ posts : List Post,
      (replaceFirst p posts).map (fun q => q._id) = posts.map (fun q => q._id) := by
  intro posts
  induction posts with
  | nil => rfl
  | cons q qs ih =>
    by_cases hq : q._id = p._id
    · simp [replaceFirst, hq]
    · simp [replaceFirst, hq, ih]

theorem mem_replaceFirst (p x : Post) :
    ∀ posts : List Post, x ∈ replaceFirst p posts → x = p ∨ x ∈ posts := by
  intro posts
  induction posts with
  | nil => intro h; simp [replaceFirst] at h
  | cons q qs ih =>
    intro h
    by_cases hq : q._id = p._id
    · simp only [replaceFirst, hq, beq_self_eq_true, if_true, List.mem_cons] at h
      rcases h with h | h
      · exact Or.inl h
      · exact Or.inr (List.mem_cons_of_mem _ h)
    · simp only [replaceFirst, beq_iff_eq, hq, if_false, List.mem_cons] at h
      rcases h with h | h
      · exact Or.inr (h ▸ List.mem_cons_self _ _)
      · rcases ih h with h | h
        · exact Or.inl h
        · exact Or.inr (List.mem_cons_of_mem _ h)

theorem eraseFirst_sublist (id : String) :
    ∀ posts : List Post, (eraseFirst id posts).Sublist posts := by
  intro posts
  induction posts with
  | nil => exact List.Sublist.refl _
  | cons q qs ih =>
    by_cases hq : q._id = id
    · simp [eraseFirst, hq]
    · simp only [eraseFirst, beq_iff_eq, hq, if_false]
      exact ih.cons₂ q

theorem findById_none_not_mem (db : Db) (id : String) (h : db.findById id = none) :
    id ∉ db.posts.map (fun p => p._id) := by
  intro hmem
  obtain ⟨p, hp, rfl⟩ := List.mem_map.mp hmem
  have := List.find?_eq_none.mp h p hp
  simp at this

/-- Serving a call keeps the `_id`s of the store distinct. -/
theorem serve_uniqueIds (env : Env) (db : Db) (call : Call) (h : db.uniqueIds) :
    (serve env db call).db.uniqueIds := by
  cases call with
  | create req =>
    rcases createPost_db env db req with e | ⟨p, e, hfresh, -⟩
    · simp only [serve, e]; exact h
    · simp only [serve, e, Db.uniqueIds, List.map_append, List.map_cons, List.map_nil]
      rw [List.nodup_append]
      refine ⟨h, List.nodup_singleton _, ?_⟩
      intro a ha hb
      rw [List.mem_singleton] at hb
      exact findById_none_not_mem db _ hfresh (hb ▸ ha)
  | list req => simp only [serve, getAllPosts_db]; exact h
  | update req =>
    rcases updatePost_db env db req with e | ⟨post, -, -, e⟩
    · simp only [serve, e]; exact h
    · simp only [serve, e, Db.uniqueIds, map_id_replaceFirst]; exact h
  | delete req =>
    rcases deletePost_db env db req with e | ⟨id, e⟩
    · simp only [serve, e]; exact h
    · simp only [serve, e, Db.uniqueIds]
      exact List.Nodup.sublist ((eraseFirst_sublist id db.posts).map _) h

/-- Every store reached from the empty store has distinct `_id`s. -/
theorem run_uniqueIds (calls : List (Env × Call)) :
    ∀ db : Db, db.uniqueIds → (run db calls).uniqueIds := by
  induction calls with
  | nil => intro db h; exact h
  | cons c rest ih =>
    intro db h
    exact ih _ (serve_uniqueIds c.1 db c.2 h)

/-- Serving a call keeps every stored type within the spellings of `lost` and
`found`. -/
theorem serve_typesAllowed (env : Env) (db : Db) (call : Call) (h : db.typesAllowed) :
    (serve env db call).db.typesAllowed := by
  cases call with
  | create req =>
    rcases createPost_db env db req with e | ⟨p, e, -, hp⟩
    · simp only [serve, e]; exact h
    · simp only [serve, e, Db.typesAllowed, List.mem_append, List.mem_singleton]
      rintro q (hq | rfl)
      · exact h q hq
      · exact hp
  | list req => simp only [serve, getAllPosts_db]; exact h
  | update req =>
    rcases updatePost_db env db req with e | ⟨post, hpost, hty, e⟩
    · simp only [serve, e]; exact h
    · simp only [serve, e, Db.typesAllowed]
      intro q hq
      rcases mem_replaceFirst _ q db.posts hq with rfl | hq
      · by_cases ht : truthy req.body.type = true
        · have : (applyUpdate req.body post).type = text req.body.type :=
            orElse_of_truthy _ _ ht
          rw [this]
          exact (isAllowedType_iff _).mp (hty ht)
        · have hab : absentOrEmpty req.body.type :=
            (truthy_eq_false_iff _).mp (by simpa using ht)
          have : (applyUpdate req.body post).type = post.type :=
            orElse_of_absentOrEmpty _ _ hab
          rw [this]
          exact h post (List.mem_of_find?_eq_some hpost)
      · exact h q hq
  | delete req =>
    rcases deletePost_db env db req with e | ⟨id, e⟩
    · simp only [serve, e]; exact h
    · simp only [serve, e, Db.typesAllowed]
      intro q hq
      exact h q ((eraseFirst_sublist id db.posts).subset hq)

theorem run_typesAllowed (calls : List (Env × Call)) :
    ∀ db : Db, db.typesAllowed → (run db calls).typesAllowed := by
  induction calls with
  | nil => intro db h; exact h
  | cons c rest ih =>
    intro db h
    exact ih _ (serve_typesAllowed c.1 db c.2 h)

theorem lists_select (db : Db) (f : Filter) (found : Option (String → Bool)) :
    db.lists (db.select f found) (f.accepts found) := by
  have hmap : ∀ l : List Post, (l.map db.populate).map (fun x => x.doc) = l := by
    intro l
    induction l with
    | nil => rfl
    | cons a l ih => simp [Db.populate, ih]
  constructor
  · rw [Db.select, hmap]
    exact List.perm_insertionSort _ _
  · intro x hx
    obtain ⟨p, -, -, rfl⟩ := (mem_select db f found x).mp hx
    rfl

theorem mem_of_lists (db : Db) (ps : List PopulatedPost) (ok : Post → Bool)
    (h : db.lists ps ok) (x : PopulatedPost) :
    x ∈ ps ↔ ∃ p, p ∈ db.posts ∧ ok p = true ∧ db.populate p = x := by
  constructor
  · intro hx
    have hdoc : x.doc ∈ ps.map (fun y => y.doc) := List.mem_map.mpr ⟨x, hx, rfl⟩
    have := (h.1.mem_iff).mp hdoc
    rw [List.mem_filter] at this
    exact ⟨x.doc, this.1, this.2, (h.2 x hx).symm⟩
  · rintro ⟨p, hp, hok, rfl⟩
    have hdoc : p ∈ ps.map (fun y => y.doc) :=
      (h.1.mem_iff).mpr (List.mem_filter.mpr ⟨hp, hok⟩)
    obtain ⟨y, hy, hyp⟩ := List.mem_map.mp hdoc
    have : y = db.populate p := by
      rw [h.2 y hy]
      exact congrArg db.populate hyp
    exact this ▸ hy

/-! ## The claims -/

/-- C1: `createPost` applies its checks in a fixed order and the first
violation wins.  If a required text field is absent or empty the outcome is
`missingFields`; otherwise, if the type is not allowed, `invalidType`;
otherwise, if no file is attached, `missingImage`.  Each of the three has
status 400, leaves the store as it was and hands nothing to the upload helper,
whatever the remaining parts of the request are. -/
theorem createPost_validation_order (env : Env) (db : Db) (req : CreateRequest) :
    (req.body.incomplete → createPost env db req = ⟨missingFields, db, []⟩) ∧
    (¬ req.body.incomplete → ¬ validType (text req.body.type) →
      createPost env db req = ⟨invalidType, db, []⟩) ∧
    (¬ req.body.incomplete → validType (text req.body.type) → req.file = none →
      createPost env db req = ⟨missingImage, db, []⟩) ∧
    missingFields.status = 400 ∧ invalidType.status = 400 ∧ missingImage.status = 400 := by
  refine ⟨createPost_incomplete env db req, ?_, ?_, rfl, rfl, rfl⟩
  · intro h ht
    rw [createPost_complete env db req h]
    simp [(isAllowedType_eq_false_iff _).mpr ht]
  · intro h ht hf
    rw [createPost_complete env db req h]
    simp [(isAllowedType_iff _).mpr ht, hf]

theorem createPost_validation_order_witness :
    createPost sampleEnv sampleDb
        ⟨{ walletBody with title := some "" }, some walletFile, ⟨"alice"⟩⟩ =
      ⟨missingFields, sampleDb, []⟩ ∧
    createPost sampleEnv sampleDb
        ⟨{ walletBody with type := some "stolen" }, some walletFile, ⟨"alice"⟩⟩ =
      ⟨invalidType, sampleDb, []⟩ ∧
    createPost sampleEnv sampleDb ⟨walletBody, none, ⟨"alice"⟩⟩ =
      ⟨missingImage, sampleDb, []⟩ :=
  ⟨(createPost_validation_order sampleEnv sampleDb
      ⟨{ walletBody with title := some "" }, some walletFile, ⟨"alice"⟩⟩).1 (by decide),
   (createPost_validation_order sampleEnv sampleDb
      ⟨{ walletBody with type := some "stolen" }, some walletFile, ⟨"alice"⟩⟩).2.1
      (by decide) (by decide),
   (createPost_validation_order sampleEnv sampleDb ⟨walletBody, none, ⟨"alice"⟩⟩).2.2.1
      (by decide) (by decide) rfl⟩

/-- C2: when the Post found under the given id belongs to someone other than
the caller, `updatePost` (with any body, an invalid type included) and
`deletePost` both answer `forbidden`, status 403, and leave the whole store as
it was. -/
theorem not_owner_is_forbidden (env : Env) (db : Db) (post : Post) (id : String) (auth : Auth)
    (hfind : env.findByIdFails = false) (hpost : db.findById id = some post)
    (howner : post.userId ≠ auth.userId) :
    (∀ body : UpdateBody, updatePost env db ⟨⟨id⟩, body, auth⟩ = ⟨forbidden, db, []⟩) ∧
    deletePost env db ⟨⟨id⟩, auth⟩ = ⟨forbidden, db, []⟩ ∧
    forbidden.status = 403 := by
  refine ⟨?_, ?_, rfl⟩
  · intro body
    simp [updatePost, hfind, hpost, howner]
  · simp [deletePost, hfind, hpost, howner]

theorem not_owner_is_forbidden_witness :
    (∀ body : UpdateBody,
      updatePost sampleEnv sampleDb ⟨⟨"p1"⟩, body, ⟨"bob"⟩⟩ = ⟨forbidden, sampleDb, []⟩) ∧
    deletePost sampleEnv sampleDb ⟨⟨"p1"⟩, ⟨"bob"⟩⟩ = ⟨forbidden, sampleDb, []⟩ ∧
    forbidden.status = 403 :=
  not_owner_is_forbidden sampleEnv sampleDb umbrellaPost "p1" ⟨"bob"⟩ rfl (by decide) (by decide)

/-- C3: `createPost` stores the type as it was sent.  The request of the
example scenario, whose type is spelled `LOST`, succeeds and the Post that is
persisted and returned has type `LOST`, not its lower-case form `lost`. -/
theorem createPost_keeps_type_spelling :
    createPost sampleEnv sampleDb ⟨walletBody, some walletFile, ⟨"alice"⟩⟩ =
      ⟨created walletPost, ⟨[umbrellaPost, walletPost], [alice]⟩, ["uploads/wallet.jpg"]⟩ ∧
    walletPost.type = "LOST" ∧ toLowerCase "LOST" = "lost" ∧
    walletPost.type ≠ toLowerCase "LOST" := by
  decide

/-- C4: when the create request passes the three validations and the upload
helper resolves without a URL (nothing, or the empty string), the outcome is
`imageUploadFailed`, status 500, and the store is as it was. -/
theorem createPost_upload_without_url (env : Env) (db : Db) (req : CreateRequest) (file : File)
    (v : Option String) (hbody : ¬ req.body.incomplete)
    (htype : validType (text req.body.type)) (hfile : req.file = some file)
    (hup : env.uploadImageToImageKit file.path = Promise.resolved v) (hv : absentOrEmpty v) :
    createPost env db req = ⟨imageUploadFailed, db, [file.path]⟩ ∧
    imageUploadFailed.status = 500 := by
  refine ⟨?_, rfl⟩
  rw [← truthy_eq_false_iff] at hv
  rw [createPost_complete env db req hbody]
  simp [(isAllowedType_iff _).mpr htype, hfile, hup, hv]

theorem createPost_upload_without_url_witness :
    createPost noUrlEnv sampleDb ⟨walletBody, some walletFile, ⟨"alice"⟩⟩ =
      ⟨imageUploadFailed, sampleDb, ["uploads/wallet.jpg"]⟩ ∧
    imageUploadFailed.status = 500 :=
  createPost_upload_without_url noUrlEnv sampleDb ⟨walletBody, some walletFile, ⟨"alice"⟩⟩
    walletFile none (by decide) (by decide) rfl rfl (by decide)

/-- C5: a successful update keeps what the request does not supply.  When the
caller owns the Post and the type is absent, empty or allowed, `updatePost`
succeeds, the Post it returns is the one then stored under the id, and each of
title, type, description, category and location that the request leaves absent
or empty has its previous value, as have `image` and `imageUrl` when the
request supplies no image; no field that held text becomes empty, and `_id`,
`userId` and `createdAt` are unchanged. -/
theorem updatePost_keeps_unsupplied (env : Env) (db : Db) (req : UpdateRequest) (post : Post)
    (hfind : env.findByIdFails = false) (hsave : env.saveFails = false)
    (hpost : db.findById req.params.id = some post)
    (howner : post.userId = req.auth.userId)
    (htype : absentOrEmpty req.body.type ∨ validType (text req.body.type)) :
    ∃ (p : Post) (db1 : Db),
      updatePost env db req = ⟨updated p, db1, []⟩ ∧ (updated p).status = 200 ∧
      db1.findById req.params.id = some p ∧
      (absentOrEmpty req.body.title → p.title = post.title) ∧
      (absentOrEmpty req.body.type → p.type = post.type) ∧
      (absentOrEmpty req.body.description → p.description = post.description) ∧
      (absentOrEmpty req.body.category → p.category = post.category) ∧
      (absentOrEmpty req.body.location → p.location = post.location) ∧
      (absentOrEmpty req.body.imageUrl → p.image = post.image ∧ p.imageUrl = post.imageUrl) ∧
      (post.title ≠ "" → p.title ≠ "") ∧ (post.type ≠ "" → p.type ≠ "") ∧
      (post.description ≠ "" → p.description ≠ "") ∧ (post.category ≠ "" → p.category ≠ "") ∧
      (post.location ≠ "" → p.location ≠ "") ∧
      p._id = post._id ∧ p.userId = post.userId ∧ p.createdAt = post.createdAt := by
  have hguard : (truthy req.body.type && !isAllowedType (text req.body.type)) = false := by
    rcases htype with h | h
    · simp [(truthy_eq_false_iff _).mpr h]
    · simp [(isAllowedType_iff _).mpr h]
  refine ⟨{ post with
            title := orElse req.body.title post.title
            type := orElse req.body.type post.type
            description := orElse req.body.description post.description
            category := orElse req.body.category post.category
            location := orElse req.body.location post.location
            imageUrl := orElseOpt req.body.imageUrl post.imageUrl },
          { db with posts := replaceFirst { post with
            title := orElse req.body.title post.title
            type := orElse req.body.type post.type
            description := orElse req.body.description post.description
            category := orElse req.body.category post.category
            location := orElse req.body.location post.location
            imageUrl := orElseOpt req.body.imageUrl post.imageUrl } db.posts }, ?_, rfl, ?_, ?_⟩
  · simp only [updatePost, hfind, hpost, howner, Db.save, hsave, hguard]
    simp
  · have key : ∀ p : Post, p._id = post._id →
        Db.findById { db with posts := replaceFirst p db.posts } req.params.id = some p :=
      fun p hp =>
        find?_replaceFirst p post _ (hp.trans (findById_id db _ post hpost)) db.posts hpost
    exact key _ rfl
  · exact ⟨orElse_of_absentOrEmpty _ _, orElse_of_absentOrEmpty _ _,
      orElse_of_absentOrEmpty _ _, orElse_of_absentOrEmpty _ _, orElse_of_absentOrEmpty _ _,
      fun h => ⟨rfl, orElseOpt_of_absentOrEmpty _ _ h⟩,
      orElse_ne_empty _ _, orElse_ne_empty _ _, orElse_ne_empty _ _, orElse_ne_empty _ _,
      orElse_ne_empty _ _, rfl, rfl, rfl⟩

theorem updatePost_keeps_unsupplied_witness :
    ∃ (p : Post) (db1 : Db),
      updatePost sampleEnv sampleDb
        ⟨⟨"p1"⟩, { emptyUpdate with location := some "Times Square" }, ⟨"alice"⟩⟩ =
          ⟨updated p, db1, []⟩ ∧
      db1.findById "p1" = some p ∧
      p.title = umbrellaPost.title ∧ p.type = umbrellaPost.type ∧
      p.description = umbrellaPost.description ∧ p.category = umbrellaPost.category ∧
      p.image = umbrellaPost.image := by
  obtain ⟨p, db1, h, -, hs, h1, h2, h3, h4, -, h6, -⟩ :=
    updatePost_keeps_unsupplied sampleEnv sampleDb
      ⟨⟨"p1"⟩, { emptyUpdate with location := some "Times Square" }, ⟨"alice"⟩⟩ umbrellaPost
      rfl rfl (by decide) rfl (Or.inl (by decide))
  exact ⟨p, db1, h, hs, h1 (by decide), h2 (by decide), h3 (by decide), h4 (by decide),
    (h6 (by decide)).1⟩

/-- C6: an update that supplies an image does not overwrite the stored
`image`.  The owner of `umbrellaPost` sends a new image URL; the update
succeeds, the returned and stored Post still has the old `image`, and the new
URL sits under the separate property `imageUrl`. -/
theorem updatePost_leaves_image :
    updatePost sampleEnv sampleDb
        ⟨⟨"p1"⟩, { emptyUpdate with imageUrl := some "https://ik.example/new.jpg" },
          ⟨"alice"⟩⟩ =
      ⟨updated { umbrellaPost with imageUrl := some "https://ik.example/new.jpg" },
        ⟨[{ umbrellaPost with imageUrl := some "https://ik.example/new.jpg" }], [alice]⟩, []⟩ ∧
    ({ umbrellaPost with imageUrl := some "https://ik.example/new.jpg" } : Post).image =
      "https://ik.example/umbrella.jpg" := by
  decide

/-- C7, as stated, fails: with the location filter `.` the stored Post located
at `Central Park` is listed, although its location does not contain a full
stop. -/
theorem location_filter_is_a_pattern :
    getAllPosts sampleEnv sampleDb ⟨⟨none, none, some "."⟩⟩ =
      ⟨listed [sampleDb.populate umbrellaPost], sampleDb, []⟩ ∧
    umbrellaPost ∈ sampleDb.posts ∧
    ¬ containsIgnoreCase sampleEnv.caseFold umbrellaPost.location "." := by
  decide

/-- C7, amended: for a listing whose location filter `q` is non-empty and
contains none of the characters special in a pattern, and a store that
answers, the listing succeeds and a stored Post that passes the type and
category predicates is listed if and only if its location contains `q` as a
substring, two characters counting as equal when the case folding of the
store's pattern engine maps them to the same character. -/
theorem location_filter_literal (env : Env) (db : Db) (req : ListRequest) (q : String)
    (hq : req.query.location = some q) (hne : q ≠ "")
    (hlit : ∀ c ∈ q.data, isMeta c = false) (hfind : env.findFails = false) :
    ∃ posts, getAllPosts env db req = ⟨listed posts, db, []⟩ ∧
      ∀ p : Post, p ∈ db.posts → (buildFilter env req.query).accepts none p = true →
        (db.populate p ∈ posts ↔ containsIgnoreCase env.caseFold p.location q) := by
  have hloc : (buildFilter env req.query).location = some q := by
    simp [buildFilter, given, hq, truthy, hne, text]
  obtain ⟨posts, hposts, hmem⟩ :=
    find_literal env db (buildFilter env req.query) q hloc hlit hfind
  refine ⟨posts, ?_, ?_⟩
  · simp [getAllPosts, hposts]
  · intro p hp hacc
    rw [hmem p]
    exact ⟨fun h => h.2.2, fun h => ⟨hp, hacc, h⟩⟩

theorem location_filter_literal_witness :
    (∃ posts, getAllPosts sampleEnv sampleDb ⟨⟨none, none, some "PARK"⟩⟩ =
        ⟨listed posts, sampleDb, []⟩ ∧
      sampleDb.populate umbrellaPost ∈ posts ∧
      containsIgnoreCase sampleEnv.caseFold umbrellaPost.location "PARK") ∧
    ∃ posts, getAllPosts sampleEnv ⟨[{ umbrellaPost with location := "Café Roma" }], [alice]⟩
        ⟨⟨none, none, some "CAFÉ"⟩⟩ =
          ⟨listed posts, ⟨[{ umbrellaPost with location := "Café Roma" }], [alice]⟩, []⟩ ∧
      Db.populate ⟨[{ umbrellaPost with location := "Café Roma" }], [alice]⟩
        { umbrellaPost with location := "Café Roma" } ∈ posts := by
  constructor
  · obtain ⟨posts, h, hm⟩ := location_filter_literal sampleEnv sampleDb
      ⟨⟨none, none, some "PARK"⟩⟩ "PARK" rfl (by decide) (by decide) rfl
    exact ⟨posts, h, (hm umbrellaPost (by decide) (by decide)).mpr (by decide), by decide⟩
  · obtain ⟨posts, h, hm⟩ := location_filter_literal sampleEnv
      ⟨[{ umbrellaPost with location := "Café Roma" }], [alice]⟩
      ⟨⟨none, none, some "CAFÉ"⟩⟩ "CAFÉ" rfl (by decide) (by decide) rfl
    exact ⟨posts, h, (hm _ (by decide) (by decide)).mpr (by decide)⟩

/-- C8: when the owner of an existing Post sends an update whose type is
non-empty and, in lower case, neither `lost` nor `found`, the outcome is
`invalidType`, status 400, and the store is as it was, whatever else the
request supplies. -/
theorem updatePost_invalid_type (env : Env) (db : Db) (req : UpdateRequest) (post : Post)
    (t : String) (hfind : env.findByIdFails = false)
    (hpost : db.findById req.params.id = some post) (howner : post.userId = req.auth.userId)
    (ht : req.body.type = some t) (hne : t ≠ "")
    (hbad : ¬ validType t) :
    updatePost env db req = ⟨invalidType, db, []⟩ ∧ invalidType.status = 400 := by
  refine ⟨?_, rfl⟩
  have h1 : truthy req.body.type = true := by simp [ht, truthy, hne]
  have h2 : isAllowedType (text req.body.type) = false := by
    rw [isAllowedType_eq_false_iff, ht]; exact hbad
  simp [updatePost, hfind, hpost, howner, h1, h2]

theorem updatePost_invalid_type_witness :
    updatePost sampleEnv sampleDb
        ⟨⟨"p1"⟩, { emptyUpdate with type := some "Stolen", title := some "Umbrella" },
          ⟨"alice"⟩⟩ =
      ⟨invalidType, sampleDb, []⟩ ∧ invalidType.status = 400 :=
  updatePost_invalid_type sampleEnv sampleDb
    ⟨⟨"p1"⟩, { emptyUpdate with type := some "Stolen", title := some "Umbrella" }, ⟨"alice"⟩⟩
    umbrellaPost "Stolen" rfl (by decide) rfl rfl (by decide) (by decide)

/-- C9: two responses of `createPost` carry no `success` member.  A valid
request without a file is answered with status 400 and a body that has only a
message; a valid request whose upload resolves without a URL is answered with
status 500 and a body that has only a message. -/
theorem createPost_responses_without_success :
    (createPost sampleEnv sampleDb ⟨walletBody, none, ⟨"alice"⟩⟩).response =
      ⟨400, none, some "No image file uploaded", none, none⟩ ∧
    (createPost noUrlEnv sampleDb ⟨walletBody, some walletFile, ⟨"alice"⟩⟩).response =
      ⟨500, none, some "Image upload failed", none, none⟩ := by
  decide

/-- C10, as stated, fails in three ways.  A Post created with location
`Main St. (north)` is not among the Posts listed for its own type, category
and location; nor is a Post created with category `Bags`; nor is a Post
created with type `LOST`. -/
theorem create_then_list_misses :
    createPost sampleEnv sampleDb ⟨keysBody, some walletFile, ⟨"alice"⟩⟩ =
      ⟨created keysPost, ⟨[umbrellaPost, keysPost], [alice]⟩, ["uploads/wallet.jpg"]⟩ ∧
    getAllPosts sampleEnv ⟨[umbrellaPost, keysPost], [alice]⟩
        ⟨⟨keysBody.type, keysBody.category, keysBody.location⟩⟩ =
      ⟨listed [], ⟨[umbrellaPost, keysPost], [alice]⟩, []⟩ ∧
    createPost sampleEnv sampleDb ⟨bagBody, some walletFile, ⟨"alice"⟩⟩ =
      ⟨created bagPost, ⟨[umbrellaPost, bagPost], [alice]⟩, ["uploads/wallet.jpg"]⟩ ∧
    getAllPosts sampleEnv ⟨[umbrellaPost, bagPost], [alice]⟩
        ⟨⟨bagBody.type, bagBody.category, bagBody.location⟩⟩ =
      ⟨listed [], ⟨[umbrellaPost, bagPost], [alice]⟩, []⟩ ∧
    createPost sampleEnv sampleDb ⟨walletBody, some walletFile, ⟨"alice"⟩⟩ =
      ⟨created walletPost, ⟨[umbrellaPost, walletPost], [alice]⟩, ["uploads/wallet.jpg"]⟩ ∧
    getAllPosts sampleEnv ⟨[umbrellaPost, walletPost], [alice]⟩
        ⟨⟨walletBody.type, walletBody.category, walletBody.location⟩⟩ =
      ⟨listed [], ⟨[umbrellaPost, walletPost], [alice]⟩, []⟩ := by
  decide

/-- C10, amended: after a successful create whose type and category are left
as they are by the runtime's lower-casing and whose location contains none of
the characters special in a pattern, a listing filtered by the request's own
type, category and location, on a store that answers, succeeds and contains
the created Post, populated. -/
theorem create_then_list_finds (env env2 : Env) (db db1 : Db) (req : CreateRequest) (p : Post)
    (ups : List String) (hcreate : createPost env db req = ⟨created p, db1, ups⟩)
    (htype : env2.lowerCase (text req.body.type) = text req.body.type)
    (hcat : env2.lowerCase (text req.body.category) = text req.body.category)
    (hloc : ∀ c ∈ (text req.body.location).data, isMeta c = false)
    (hfind : env2.findFails = false) :
    ∃ posts, getAllPosts env2 db1
        ⟨⟨req.body.type, req.body.category, req.body.location⟩⟩ = ⟨listed posts, db1, []⟩ ∧
      db1.populate p ∈ posts := by
  obtain ⟨hinc, -, hpt, hpc, hpl, hdb⟩ := createPost_created env db db1 req p ups hcreate
  simp only [CreateBody.incomplete, ← truthy_eq_false_iff, not_or, Bool.not_eq_false] at hinc
  obtain ⟨-, h2, -, h4, h5⟩ := hinc
  have hf : buildFilter env2 ⟨req.body.type, req.body.category, req.body.location⟩ =
      ⟨some (text req.body.type), some (text req.body.category),
        some (text req.body.location)⟩ := by
    simp [buildFilter, given_of_truthy, h2, h4, h5, htype, hcat]
  obtain ⟨posts, hposts, hmem⟩ := find_literal env2 db1 _ (text req.body.location)
    (congrArg Filter.location hf) hloc hfind
  refine ⟨posts, ?_, ?_⟩
  · simp [getAllPosts, hposts]
  · rw [hmem p]
    refine ⟨?_, ?_, ?_⟩
    · rw [hdb]; simp
    · rw [hf]; simp [Filter.accepts, hpt, hpc]
    · rw [hpl]; exact List.infix_refl _

theorem create_then_list_finds_witness :
    ∃ posts, getAllPosts sampleEnv ⟨[umbrellaPost, { walletPost with type := "lost" }], [alice]⟩
        ⟨⟨some "lost", some "wallet", some "Central Park"⟩⟩ =
          ⟨listed posts, ⟨[umbrellaPost, { walletPost with type := "lost" }], [alice]⟩, []⟩ ∧
      Db.populate ⟨[umbrellaPost, { walletPost with type := "lost" }], [alice]⟩
        { walletPost with type := "lost" } ∈ posts :=
  create_then_list_finds sampleEnv sampleEnv sampleDb
    ⟨[umbrellaPost, { walletPost with type := "lost" }], [alice]⟩
    ⟨{ walletBody with type := some "lost" }, some walletFile, ⟨"alice"⟩⟩
    { walletPost with type := "lost" } ["uploads/wallet.jpg"] (by decide) (by decide)
    (by decide) (by decide) rfl

/-- C11: a create request with the five text fields supplied, an allowed
type, a file and an upload that resolves with a URL `u`, served by a store that
accepts the write, succeeds with status 201.  The store afterwards is the
previous store followed by one new Post; that Post is the data of the
response, it belongs to the caller, its image is `u`, and its title,
description, category and location are the request's values. -/
theorem createPost_success (env : Env) (db : Db) (req : CreateRequest) (file : File)
    (u : String) (hbody : ¬ req.body.incomplete) (htype : validType (text req.body.type))
    (hfile : req.file = some file)
    (hup : env.uploadImageToImageKit file.path = Promise.resolved (some u)) (hu : u ≠ "")
    (hsave : env.saveFails = false) (hfresh : db.findById env.newId = none) :
    ∃ p : Post,
      createPost env db req = ⟨created p, ⟨db.posts ++ [p], db.users⟩, [file.path]⟩ ∧
      (created p).status = 201 ∧ (created p).success = some true ∧
      (created p).data = some (Payload.post p) ∧
      p.userId = req.auth.userId ∧ p.image = u ∧
      req.body.title = some p.title ∧ req.body.description = some p.description ∧
      req.body.category = some p.category ∧ req.body.location = some p.location := by
  have hb := hbody
  simp only [CreateBody.incomplete, ← truthy_eq_false_iff, not_or, Bool.not_eq_false] at hb
  obtain ⟨h1, -, h3, h4, h5⟩ := hb
  have key : ∀ v : Option String, truthy v = true → v = some (text v) := by
    intro v hv
    cases v with
    | none => simp [truthy] at hv
    | some s => rfl
  refine ⟨{ _id := env.newId
            userId := req.auth.userId
            title := text req.body.title
            type := text req.body.type
            description := text req.body.description
            category := text req.body.category
            location := text req.body.location
            image := u
            imageUrl := none
            createdAt := env.now }, ?_, rfl, rfl, rfl, rfl, rfl, key _ h1, key _ h3, key _ h4,
          key _ h5⟩
  rw [createPost_complete env db req hbody]
  simp [(isAllowedType_iff _).mpr htype, hfile, hup, truthy_some u hu, Db.insert, hsave, hfresh,
    text_some]

theorem createPost_success_witness :
    ∃ p : Post,
      createPost sampleEnv sampleDb ⟨walletBody, some walletFile, ⟨"alice"⟩⟩ =
        ⟨created p, ⟨sampleDb.posts ++ [p], sampleDb.users⟩, ["uploads/wallet.jpg"]⟩ ∧
      p.userId = "alice" ∧ p.image = "https://ik.example/wallet.jpg" ∧
      walletBody.title = some p.title ∧ walletBody.location = some p.location := by
  obtain ⟨p, h, -, -, -, ho, hi, ht, -, -, hl⟩ :=
    createPost_success sampleEnv sampleDb ⟨walletBody, some walletFile, ⟨"alice"⟩⟩ walletFile
      "https://ik.example/wallet.jpg" (by decide) (by decide) rfl rfl (by decide) rfl
      (by decide)
  exact ⟨p, h, ho, hi, ht, hl⟩

/-- C12: the filter `getAllPosts` builds holds a type predicate exactly when a
non-empty type is supplied (the lower-cased value), a category predicate
exactly when a non-empty category is supplied (the lower-cased value) and a
location predicate exactly when a non-empty location is supplied (the value as
a pattern).  A Post is accepted when it satisfies every predicate present.  On
a store that answers, whenever the filter has no pattern or the pattern engine
reads its pattern, the listing succeeds with status 200, holds exactly the
stored Posts the filter accepts, each once and populated, and `count` is their
number; the listings for the type alone, the category alone and the location
alone succeed and hold the Posts accepted by that one predicate, and the
combined listing holds exactly the Posts held by all three.  When the engine
refuses the pattern the combined listing and the one for the location alone
are both refused.  With no filter supplied the filter is empty and every
stored Post is listed. -/
theorem getAllPosts_filter (env : Env) (db : Db) (query : Query)
    (hfind : env.findFails = false) :
    (buildFilter env query).type =
      (if absentOrEmpty query.type then none else some (env.lowerCase (text query.type))) ∧
    (buildFilter env query).category =
      (if absentOrEmpty query.category then none
        else some (env.lowerCase (text query.category))) ∧
    (buildFilter env query).location =
      (if absentOrEmpty query.location then none else some (text query.location)) ∧
    (∀ (f : Filter) (found : Option (String → Bool)) (p : Post),
      f.accepts found p = true ↔
        (∀ t, f.type = some t → p.type = t) ∧
        (∀ c, f.category = some c → p.category = c) ∧
        (∀ m, found = some m → m p.location = true)) ∧
    (∀ found : Option (String → Bool),
      ((buildFilter env query).location = none ∧ found = none ∨
        ∃ l m, (buildFilter env query).location = some l ∧ env.matcher l = some m ∧
          found = some m) →
      ∃ ps psT psC psL : List PopulatedPost,
        getAllPosts env db ⟨query⟩ = ⟨listed ps, db, []⟩ ∧
        db.lists ps ((buildFilter env query).accepts found) ∧
        (listed ps).status = 200 ∧ (listed ps).count = some ps.length ∧
        getAllPosts env db ⟨⟨query.type, none, none⟩⟩ = ⟨listed psT, db, []⟩ ∧
        db.lists psT (Filter.accepts ⟨(buildFilter env query).type, none, none⟩ none) ∧
        getAllPosts env db ⟨⟨none, query.category, none⟩⟩ = ⟨listed psC, db, []⟩ ∧
        db.lists psC (Filter.accepts ⟨none, (buildFilter env query).category, none⟩ none) ∧
        getAllPosts env db ⟨⟨none, none, query.location⟩⟩ = ⟨listed psL, db, []⟩ ∧
        db.lists psL (Filter.accepts ⟨none, none, (buildFilter env query).location⟩ found) ∧
        ∀ x : PopulatedPost, x ∈ ps ↔ x ∈ psT ∧ x ∈ psC ∧ x ∈ psL) ∧
    (∀ l : String, (buildFilter env query).location = some l → env.matcher l = none →
      getAllPosts env db ⟨query⟩ = ⟨serverError, db, []⟩ ∧
      getAllPosts env db ⟨⟨none, none, query.location⟩⟩ = ⟨serverError, db, []⟩) ∧
    (absentOrEmpty query.type → absentOrEmpty query.category →
      absentOrEmpty query.location →
      buildFilter env query = ⟨none, none, none⟩ ∧
      ∃ ps : List PopulatedPost,
        getAllPosts env db ⟨query⟩ = ⟨listed ps, db, []⟩ ∧
        (ps.map (fun x => x.doc)).Perm db.posts ∧
        (listed ps).status = 200 ∧ (listed ps).count = some ps.length) := by
  have hA := getAllPosts_eq env db query hfind
  have hT := getAllPosts_eq env db ⟨query.type, none, none⟩ hfind
  have hC := getAllPosts_eq env db ⟨none, query.category, none⟩ hfind
  have hL := getAllPosts_eq env db ⟨none, none, query.location⟩ hfind
  have hTf : buildFilter env ⟨query.type, none, none⟩ =
      ⟨(buildFilter env query).type, none, none⟩ := rfl
  have hCf : buildFilter env ⟨none, query.category, none⟩ =
      ⟨none, (buildFilter env query).category, none⟩ := rfl
  have hLf : buildFilter env ⟨none, none, query.location⟩ =
      ⟨none, none, (buildFilter env query).location⟩ := rfl
  rw [hTf] at hT
  rw [hCf] at hC
  rw [hLf] at hL
  simp only at hT hC hL
  refine ⟨?_, ?_, ?_, accepts_iff, ?_, ?_, ?_⟩
  · simp only [buildFilter, given_eq]
    split <;> rfl
  · simp only [buildFilter, given_eq]
    split <;> rfl
  · simp only [buildFilter, given_eq]
  · rintro found (⟨hloc, rfl⟩ | ⟨l, m, hloc, hm, rfl⟩)
    · rw [hloc] at hA hL
      refine ⟨_, _, _, _, hA, lists_select db _ _, rfl, rfl, hT, lists_select db _ _, hC,
        lists_select db _ _, hL, ?_, ?_⟩
      · rw [hloc]; exact lists_select db _ _
      · intro x
        have := mem_select_split db (buildFilter env query).type
          (buildFilter env query).category (buildFilter env query).location none x
        rw [hloc] at this
        exact this
    · rw [hloc] at hA hL
      simp only [hm] at hA hL
      refine ⟨_, _, _, _, hA, lists_select db _ _, rfl, rfl, hT, lists_select db _ _, hC,
        lists_select db _ _, hL, ?_, ?_⟩
      · rw [hloc]; exact lists_select db _ _
      · intro x
        have := mem_select_split db (buildFilter env query).type
          (buildFilter env query).category (buildFilter env query).location (some m) x
        rw [hloc] at this
        exact this
  · intro l hloc hm
    rw [hloc] at hA hL
    simp only [hm] at hA hL
    exact ⟨hA, hL⟩
  · intro h1 h2 h3
    have hf : buildFilter env query = ⟨none, none, none⟩ := by
      simp [buildFilter, given_of_absentOrEmpty, h1, h2, h3]
    refine ⟨hf, db.select ⟨none, none, none⟩ none, ?_, select_all_perm db, rfl, rfl⟩
    rw [getAllPosts_eq env db query hfind, hf]

theorem getAllPosts_filter_witness :
    buildFilter sampleEnv ⟨some "LOST", some "", some "Park"⟩ =
      ⟨some "lost", none, some "Park"⟩ ∧
    buildFilter sampleEnv ⟨none, some "CAFÉ", none⟩ = ⟨none, some "café", none⟩ ∧
    (∃ ps : List PopulatedPost,
      getAllPosts sampleEnv ⟨[umbrellaPost, keysPost], [alice]⟩ ⟨⟨some "LOST", none, none⟩⟩ =
        ⟨listed ps, ⟨[umbrellaPost, keysPost], [alice]⟩, []⟩ ∧
      (ps.map (fun x => x.doc)).Perm [keysPost] ∧ (listed ps).count = some ps.length) ∧
    ∃ ps : List PopulatedPost,
      getAllPosts sampleEnv sampleDb ⟨⟨none, some "", none⟩⟩ = ⟨listed ps, sampleDb, []⟩ ∧
      (ps.map (fun x => x.doc)).Perm sampleDb.posts ∧
      (listed ps).count = some ps.length := by
  refine ⟨by decide, by decide, ?_, ?_⟩
  · obtain ⟨ps, -, -, -, h, hl, -, hcount, -⟩ :=
      (getAllPosts_filter sampleEnv ⟨[umbrellaPost, keysPost], [alice]⟩
        ⟨some "LOST", none, none⟩ rfl).2.2.2.2.1 none (Or.inl ⟨by decide, rfl⟩)
    exact ⟨ps, h, hl.1.trans (by decide), hcount⟩
  · obtain ⟨-, ps, h, hperm, -, hcount⟩ :=
      (getAllPosts_filter sampleEnv sampleDb ⟨none, some "", none⟩ rfl).2.2.2.2.2.2
        (by decide) (by decide) (by decide)
    exact ⟨ps, h, hperm, hcount⟩

/-- C13: when the lookup of the given id finds no Post, `updatePost` (for any
caller and any body) and `deletePost` (for any caller) answer `notFound`,
status 404, and leave the store as it was. -/
theorem unknown_id_is_not_found (env : Env) (db : Db) (id : String)
    (hfind : env.findByIdFails = false) (hpost : db.findById id = none) :
    (∀ (body : UpdateBody) (auth : Auth),
      updatePost env db ⟨⟨id⟩, body, auth⟩ = ⟨notFound, db, []⟩) ∧
    (∀ auth : Auth, deletePost env db ⟨⟨id⟩, auth⟩ = ⟨notFound, db, []⟩) ∧
    notFound.status = 404 := by
  refine ⟨?_, ?_, rfl⟩
  · intro body auth
    simp [updatePost, hfind, hpost]
  · intro auth
    simp [deletePost, hfind, hpost]

theorem unknown_id_is_not_found_witness :
    (∀ (body : UpdateBody) (auth : Auth),
      updatePost sampleEnv sampleDb ⟨⟨"p9"⟩, body, auth⟩ = ⟨notFound, sampleDb, []⟩) ∧
    (∀ auth : Auth, deletePost sampleEnv sampleDb ⟨⟨"p9"⟩, auth⟩ = ⟨notFound, sampleDb, []⟩) ∧
    notFound.status = 404 :=
  unknown_id_is_not_found sampleEnv sampleDb "p9" rfl (by decide)

/-- C14: when the caller owns the Post found under the id, the store answers
and no two stored Posts share an `_id`, `deletePost` answers with status 200
and `success: true`; the store afterwards holds, in the same order and
unchanged, exactly the Posts whose `_id` is not the given id, the deleted Post
is no longer stored, and a lookup of the id finds nothing. -/
theorem deletePost_by_owner (env : Env) (db : Db) (req : DeleteRequest) (post : Post)
    (hfind : env.findByIdFails = false) (hdel : env.deleteOneFails = false)
    (hpost : db.findById req.params.id = some post)
    (howner : post.userId = req.auth.userId) (hids : db.uniqueIds) :
    ∃ db1 : Db,
      deletePost env db req = ⟨deleted, db1, []⟩ ∧
      deleted.status = 200 ∧ deleted.success = some true ∧
      db1.posts = db.posts.filter (fun p => p._id != req.params.id) ∧
      db1.users = db.users ∧
      (∀ p : Post, p ∈ db1.posts ↔ p ∈ db.posts ∧ p._id ≠ req.params.id) ∧
      post ∉ db1.posts ∧
      db1.findById req.params.id = none := by
  have hid : post._id = req.params.id := findById_id db _ post hpost
  refine ⟨⟨db.posts.filter (fun p => p._id != req.params.id), db.users⟩,
    ?_, rfl, rfl, rfl, rfl, ?_, ?_, find?_filter_ne _ _⟩
  · simp [deletePost, hfind, hpost, howner, Db.deleteOne, hdel, hid,
      eraseFirst_eq_filter req.params.id db.posts hids]
  · intro p
    simp [List.mem_filter]
  · simp [List.mem_filter, hid]

theorem deletePost_by_owner_witness :
    ∃ db1 : Db,
      deletePost sampleEnv ⟨[umbrellaPost, walletPost], [alice]⟩ ⟨⟨"p1"⟩, ⟨"alice"⟩⟩ =
        ⟨deleted, db1, []⟩ ∧
      db1.posts = [walletPost] ∧ db1.findById "p1" = none := by
  obtain ⟨db1, h, -, -, hposts, -, -, -, hnone⟩ :=
    deletePost_by_owner sampleEnv ⟨[umbrellaPost, walletPost], [alice]⟩ ⟨⟨"p1"⟩, ⟨"alice"⟩⟩
      umbrellaPost rfl rfl (by decide) rfl (by decide)
  exact ⟨db1, h, hposts.trans (by decide), hnone⟩

/-- C15: the store does not keep the type within `lost` and `found`.  Starting
from the empty store, one create whose type is spelled `LOST` leaves a Post
of type `LOST`; and a create of type `lost` followed by an update by the owner
whose type is spelled `FOUND` leaves a Post of type `FOUND`. -/
theorem run_keeps_type_spelling :
    run emptyDb [(sampleEnv, Call.create ⟨walletBody, some walletFile, ⟨"alice"⟩⟩)] =
      ⟨[walletPost], [alice]⟩ ∧
    walletPost.type ≠ "lost" ∧ walletPost.type ≠ "found" ∧
    run emptyDb
        [(sampleEnv, Call.create ⟨keysBody, some walletFile, ⟨"alice"⟩⟩),
         (sampleEnv, Call.update ⟨⟨"p2"⟩, { emptyUpdate with type := some "FOUND" }, ⟨"alice"⟩⟩)] =
      ⟨[{ keysPost with type := "FOUND" }], [alice]⟩ := by
  decide

/-- C16: `updatePost` is idempotent.  Serving the same update a second time, in
the same environment and on the store the first call left, sends the same
response and leaves that store as it is. -/
theorem updatePost_idempotent (env : Env) (db : Db) (req : UpdateRequest) :
    updatePost env (updatePost env db req).db req =
      ⟨(updatePost env db req).response, (updatePost env db req).db, []⟩ := by
  cases hfind : env.findByIdFails with
  | true => simp [updatePost, hfind]
  | false =>
    cases hpost : db.findById req.params.id with
    | none => simp [updatePost, hfind, hpost]
    | some post =>
      have hres := updatePost_found env db req post hfind hpost
      by_cases howner : (post.userId != req.auth.userId) = true
      · rw [if_pos howner] at hres
        rw [hres]
        exact hres
      · rw [if_neg howner] at hres
        by_cases hguard : (truthy req.body.type && !isAllowedType (text req.body.type)) = true
        · rw [if_pos hguard] at hres
          rw [hres]
          exact hres
        · rw [if_neg hguard] at hres
          by_cases hsave : env.saveFails = true
          · rw [if_pos hsave] at hres
            rw [hres]
            exact hres
          · rw [if_neg hsave] at hres
            rw [hres]
            have hagain := updatePost_found env
              { db with posts := replaceFirst (applyUpdate req.body post) db.posts } req
              (applyUpdate req.body post) hfind (findById_replaceFirst db _ post _ hpost rfl)
            have howner2 : ¬ ((applyUpdate req.body post).userId != req.auth.userId) = true :=
              howner
            rw [if_neg howner2, if_neg hguard, if_neg hsave, applyUpdate_applyUpdate,
              replaceFirst_replaceFirst] at hagain
            exact hagain

end LostFound
